import Mathlib

/-!
# Verification of the `run` command of the k6 load-testing CLI

This file gives a shallow embedding of `src/run.go` (the `run`/`inspect`
command of the k6 CLI): source resolution (`looksLikeURL`, `getSrcData`),
runner construction (`makeRunner`), collector construction
(`parseCollectorString`, `makeCollector`), the option-merge pipeline of
`actionRun`, the end-of-run group/check summary (`printGroup`) and the
exit-code behaviour of `actionRun`.

External collaborators of `run.go` (the Go standard library's `url.Parse`
and file reading, and the k6 `lib`, `js`, `simple`, `influxdb` and `json`
packages, whose sources are outside this repository snapshot) are
abstracted as oracles in an environment record `Env`, or modelled from the
specification where noted.
-/

set_option autoImplicit false

namespace K6Run

/-- Result of the Go standard library's `url.Parse`: the only field
`run.go` inspects is `Scheme`. -/
structure GoURL where
  Scheme : String
  deriving DecidableEq, Repr

/-- The source-data triple built by `getSrcData` (k6's `lib.SourceData`):
raw bytes, filename (or the `[cmdline]` sentinel), and source type. -/
structure SourceData where
  SrcData : String
  Filename : String
  SrcType : String
  deriving DecidableEq, Repr

/-- Modelled from the spec: the `lib.TypeAuto` constant, the `auto` input
type named by the `--type` flag usage string (the `lib` package is outside
this snapshot). -/
def TypeAuto : String := "auto"

/-- Modelled from the spec: the `lib.TypeURL` constant, the `url` input
type named by the `--type` flag usage string. -/
def TypeURL : String := "url"

/-- Modelled from the spec: the `lib.TypeJS` constant, the `js` input
type named by the `--type` flag usage string. -/
def TypeJS : String := "js"

/-- The `[cmdline]` sentinel filename used by `getSrcData` for sources
taken directly from the command line. -/
def cmdline : String := "[cmdline]"

/-- Runners produced by `makeRunner`: the trivial HTTP runner
(`simple.New`) holding a parsed URL, or the scripted JS runner built from
the source data. -/
inductive Runner where
  | simple (u : GoURL)
  | js (src : SourceData)
  deriving DecidableEq, Repr

/-- Collectors produced by `makeCollector`, tagged by kind and carrying
the destination string. -/
inductive Collector where
  | influxdb (p : String)
  | json (p : String)
  deriving DecidableEq, Repr

/-- Environment of external effects and collaborators of `run.go`:
`url.Parse` (`urlParse`, `none` meaning a parse error), `ioutil.ReadFile`
(`readFile`, `Except.error` meaning a read error), reading stdin
(`stdinData`), and the success of the constructors from the `simple`,
`js`, `influxdb` and `json` packages, which live outside this snapshot. -/
structure Env where
  urlParse : String → Option GoURL
  readFile : String → Except String String
  stdinData : Except String String
  simpleNewOk : GoURL → Bool
  jsLoadOk : SourceData → Bool
  influxdbNewOk : String → Bool
  jsonNewOk : String → Bool
  engineNewOk : Bool

/-- Embedding of `looksLikeURL` (run.go:138): trim the string, parse it
as a URL, and succeed exactly when parsing succeeded with a non-empty
scheme. -/
def looksLikeURL (env : Env) (s : String) : Bool :=
  match env.urlParse s.trim with
  | none => false
  | some u => u.Scheme ≠ ""

/-- Embedding of `getSrcData` (run.go:147): resolve a positional argument
and a `--type` value to a `SourceData`. `-` reads stdin; otherwise the
branch for the given type runs; a source type still `auto` at the end is
resolved by applying the URL heuristic to the content. -/
def getSrcData (env : Env) (arg t : String) : Except String SourceData :=
  let step : Except String (String × String × String) :=
    if arg = "-" then
      match env.stdinData with
      | Except.error e => Except.error e
      | Except.ok d => Except.ok (d, t, arg)
    else if t = TypeAuto then
      if looksLikeURL env arg then Except.ok (arg, TypeURL, cmdline)
      else
        match env.readFile arg with
        | Except.ok d => Except.ok (d, t, arg)
        | Except.error _ => Except.ok (arg, TypeJS, cmdline)
    else if t = TypeURL then
      if looksLikeURL env arg then Except.ok (arg, t, cmdline)
      else
        match env.readFile arg with
        | Except.ok d => Except.ok (d, t, arg)
        | Except.error e => Except.error e
    else if t = TypeJS then
      match env.readFile arg with
      | Except.ok d => Except.ok (d, t, arg)
      | Except.error _ => Except.ok (arg, t, cmdline)
    else Except.ok ("", t, arg)
  match step with
  | Except.error e => Except.error e
  | Except.ok (srcdata, srctype, filename) =>
    let srctype :=
      if srctype = TypeAuto then
        if looksLikeURL env srcdata then TypeURL else TypeJS
      else srctype
    Except.ok ⟨srcdata, filename, srctype⟩

/-- Embedding of `makeRunner` (run.go:214): dispatch on the source type;
`url` re-parses the source data and requires a non-empty scheme before
building the simple runner; `js` builds the JS runner; anything else
(including the empty string) is an invalid type. -/
def makeRunner (env : Env) (src : SourceData) : Except String Runner :=
  if src.SrcType = "" then Except.error "Invalid type specified, see --help"
  else if src.SrcType = TypeURL then
    match env.urlParse src.SrcData.trim with
    | none => Except.error "Failed to parse URL"
    | some u =>
      if u.Scheme = "" then Except.error "Failed to parse URL"
      else if env.simpleNewOk u then Except.ok (Runner.simple u)
      else Except.error "simple.New failed"
  else if src.SrcType = TypeJS then
    if env.jsLoadOk src then Except.ok (Runner.js src)
    else Except.error "js runner construction failed"
  else Except.error "Invalid type specified, see --help"

/-- Split a character list at the first `=`, as Go's
`strings.SplitN(s, "=", 2)` does: `none` when no `=` occurs (one part),
otherwise the part before and the part after the first `=`. -/
def splitOnceAux : List Char → Option (List Char × List Char)
  | [] => none
  | c :: rest =>
    if c = '=' then some ([], rest)
    else
      match splitOnceAux rest with
      | none => none
      | some (a, b) => some (c :: a, b)

/-- Embedding of `parseCollectorString` (run.go:247): split the `--out`
string at the first `=`; fewer than two parts is a malformed-output
error. -/
def parseCollectorString (s : String) : Except String (String × String) :=
  match splitOnceAux s.toList with
  | none => Except.error "Malformed output; must be in the form type=url"
  | some (t, p) => Except.ok (String.mk t, String.mk p)

/-- Embedding of `makeCollector` (run.go:256): parse the collector
string, then dispatch on the kind; `influxdb` and `json` call the
respective constructors, any other kind is an unknown-output-type
error. -/
def makeCollector (env : Env) (s : String) : Except String Collector :=
  match parseCollectorString s with
  | Except.error e => Except.error e
  | Except.ok (t, p) =>
    if t = "influxdb" then
      if env.influxdbNewOk p then Except.ok (Collector.influxdb p)
      else Except.error "influxdb.New failed"
    else if t = "json" then
      if env.jsonNewOk p then Except.ok (Collector.json p)
      else Except.error "json.New failed"
    else Except.error ("Unknown output type: " ++ t)

/-- Modelled from the spec: a tri-valued option field (the `lib` package
and its guregu/null field types are outside this snapshot) — a value
together with a `Valid` flag distinguishing set from unset. -/
structure NullVal (α : Type) where
  val : α
  Valid : Bool
  deriving DecidableEq, Repr

/-- Modelled from the spec: field-wise application — the field of `other`
overwrites exactly when its `Valid` flag is true. -/
def applyNull {α : Type} (a other : NullVal α) : NullVal α :=
  if other.Valid then other else a

/-- Modelled from the spec: the `lib.Options` record with the recognised
fields; each field carries a `Valid` flag. `Duration` is in nanoseconds,
`Acceptance` (a float64) is modelled as an exact rational, and
`Thresholds` maps metric names to ordered threshold expressions. -/
structure Options where
  Paused : NullVal Bool
  VUs : NullVal Int
  VUsMax : NullVal Int
  Duration : NullVal Int
  Linger : NullVal Bool
  AbortOnTaint : NullVal Bool
  Acceptance : NullVal ℚ
  MaxRedirects : NullVal Int
  Thresholds : NullVal (List (String × List String))
  deriving DecidableEq, Repr

/-- Modelled from the spec: `Options.Apply(other)` copies only the fields
of `other` whose `Valid` flag is true. -/
def Options.Apply (o other : Options) : Options where
  Paused := applyNull o.Paused other.Paused
  VUs := applyNull o.VUs other.VUs
  VUsMax := applyNull o.VUsMax other.VUsMax
  Duration := applyNull o.Duration other.Duration
  Linger := applyNull o.Linger other.Linger
  AbortOnTaint := applyNull o.AbortOnTaint other.AbortOnTaint
  Acceptance := applyNull o.Acceptance other.Acceptance
  MaxRedirects := applyNull o.MaxRedirects other.MaxRedirects
  Thresholds := applyNull o.Thresholds other.Thresholds

/-- Modelled from the spec: `SetAllValid(v)` marks every field's `Valid`
flag `v`, keeping the values. -/
def Options.SetAllValid (o : Options) (v : Bool) : Options where
  Paused := ⟨o.Paused.val, v⟩
  VUs := ⟨o.VUs.val, v⟩
  VUsMax := ⟨o.VUsMax.val, v⟩
  Duration := ⟨o.Duration.val, v⟩
  Linger := ⟨o.Linger.val, v⟩
  AbortOnTaint := ⟨o.AbortOnTaint.val, v⟩
  Acceptance := ⟨o.Acceptance.val, v⟩
  MaxRedirects := ⟨o.MaxRedirects.val, v⟩
  Thresholds := ⟨o.Thresholds.val, v⟩

/-- Does every field of the options carry `Valid = true`? -/
def Options.allValid (o : Options) : Bool :=
  o.Paused.Valid && o.VUs.Valid && o.VUsMax.Valid && o.Duration.Valid &&
    o.Linger.Valid && o.AbortOnTaint.Valid && o.Acceptance.Valid &&
    o.MaxRedirects.Valid && o.Thresholds.Valid

/-- An all-unset options record, for building concrete examples. -/
def emptyOptions : Options where
  Paused := ⟨false, false⟩
  VUs := ⟨0, false⟩
  VUsMax := ⟨0, false⟩
  Duration := ⟨0, false⟩
  Linger := ⟨false, false⟩
  AbortOnTaint := ⟨false, false⟩
  Acceptance := ⟨0, false⟩
  MaxRedirects := ⟨0, false⟩
  Thresholds := ⟨[], false⟩

/-- The option-merge pipeline of `actionRun` (run.go:283, 307, 310–321):
start from the CLI-flag options, apply the runner-declared options on top
of them, then apply each config-file options record in order. -/
def mergeOptions (cliOpts runnerOpts : Options) (configs : List Options) : Options :=
  configs.foldl Options.Apply (cliOpts.Apply runnerOpts)

/-- The post-merge fixup of `actionRun` (run.go:323–328): if `VUsMax` is
not valid, its value (only the value, not the flag) is set to the value of
`VUs`; then every field is marked valid. -/
def finalizeVUsMax (opts : Options) : Options :=
  let opts1 :=
    if opts.VUsMax.Valid then opts
    else { opts with VUsMax := ⟨opts.VUs.val, opts.VUsMax.Valid⟩ }
  opts1.SetAllValid true

/-- The effective options of a run: the merge pipeline followed by the
`VUsMax` fixup and `SetAllValid(true)` (run.go:283–328). -/
def effectiveOptions (cliOpts runnerOpts : Options) (configs : List Options) : Options :=
  finalizeVUsMax (mergeOptions cliOpts runnerOpts configs)

/-- The highest-valid-layer choice described by the spec for one field:
the last config file that set the field wins; otherwise the runner layer
if it set the field; otherwise the base layer. -/
def precedenceChoice {α : Type} (base runnerLayer : NullVal α)
    (configLayers : List (NullVal α)) : NullVal α :=
  match configLayers.reverse.find? (fun v => v.Valid) with
  | some v => v
  | none => if runnerLayer.Valid then runnerLayer else base

/-- Is an `Except` value a success? -/
def isOkB {ε α : Type} : Except ε α → Bool
  | Except.ok _ => true
  | Except.error _ => false

/-- The CLI-level inputs of `actionRun` (run.go:272): the abstract
environment, the positional arguments, the `--type`, `--out` and
`--config` flags, the options collected from the CLI flags, the
runner-declared options oracle, the YAML unmarshalling oracle, and the
engine's final taint status. The engine run itself, the API server and
the terminal rendering are outside the exit-code decision and are not
modelled. -/
structure CliEnv where
  env : Env
  args : List String
  typeFlag : String
  outFlag : String
  cliOpts : Options
  runnerGetOptions : Runner → Options
  configFiles : List String
  parseYaml : String → Option Options
  tainted : Bool

/-- The config-file loop of `actionRun` (run.go:310–321): read each file,
unmarshal it, and apply it on top of the accumulated options; a read or
unmarshal failure aborts with an error (exit status 1). -/
def readConfigsAux (c : CliEnv) : List String → Options → Except String Options
  | [], o => Except.ok o
  | f :: fs, o =>
    match c.env.readFile f with
    | Except.error e => Except.error e
    | Except.ok data =>
      match c.parseYaml data with
      | none => Except.error "yaml unmarshal error"
      | some cfg => readConfigsAux c fs (o.Apply cfg)

/-- The config-file loop applied to the `--config` flag values. -/
def readConfigs (c : CliEnv) (opts : Options) : Except String Options :=
  readConfigsAux c c.configFiles opts

/-- Do all `--config` files read and unmarshal successfully? -/
def configsOk (c : CliEnv) : Bool :=
  c.configFiles.all fun f =>
    match c.env.readFile f with
    | Except.error _ => false
    | Except.ok data => (c.parseYaml data).isSome

/-- The exit status of `actionRun` (run.go:272–520). Modelled from the
spec for the error paths that return a plain error to the CLI framework
(source resolution, runner, collector and engine construction): per the
spec's error-handling design these are setup errors with exit status `1`.
Explicit codes in the code: wrong argument count and config-file failures
return exit status 1, a tainted final engine status returns 99, and
normal completion returns 0. -/
def actionRunExit (c : CliEnv) : Nat :=
  if c.args.length = 1 then
    match getSrcData c.env c.args.headI c.typeFlag with
    | Except.error _ => 1
    | Except.ok srcdata =>
      match makeRunner c.env srcdata with
      | Except.error _ => 1
      | Except.ok runner =>
        match readConfigs c (c.cliOpts.Apply (c.runnerGetOptions runner)) with
        | Except.error _ => 1
        | Except.ok merged =>
          let _opts := finalizeVUsMax merged
          if c.outFlag = "" then
            if c.env.engineNewOk then (if c.tainted then 99 else 0) else 1
          else
            match makeCollector c.env c.outFlag with
            | Except.error _ => 1
            | Except.ok _ =>
              if c.env.engineNewOk then (if c.tainted then 99 else 0) else 1
  else 1

/-- Setup success of `actionRun`: exactly one argument, source resolution
and runner construction succeed, every config file loads, the collector
(when `--out` is given) and the engine construct. -/
def setupOk (c : CliEnv) : Bool :=
  if c.args.length = 1 then
    match getSrcData c.env c.args.headI c.typeFlag with
    | Except.error _ => false
    | Except.ok srcdata =>
      match makeRunner c.env srcdata with
      | Except.error _ => false
      | Except.ok _ =>
        configsOk c &&
          (c.outFlag == "" || isOkB (makeCollector c.env c.outFlag)) &&
          c.env.engineNewOk
  else false

/-- A check of the group tree (k6's `lib.Check`): name and monotone
pass/fail counters. -/
structure Check where
  Name : String
  Passes : Nat
  Fails : Nat
  deriving DecidableEq, Repr

/-- A node of the group tree (k6's `lib.Group`): name, whether the parent
pointer is non-nil, the checks of the group, and the child groups. -/
inductive Group where
  | mk (Name : String) (hasParent : Bool) (Checks : List Check) (Groups : List Group)

/-- A float64 value that is either NaN or an exact rational. -/
inductive FloatVal where
  | nan
  | val (q : ℚ)
  deriving DecidableEq, Repr

/-- Embedding of the percentage printed at run.go:465,
`100*(float64(check.Passes)/float64(check.Passes+check.Fails))`, in exact
rational arithmetic: when `Passes + Fails = 0` both counters are zero and
the float division `0/0` yields NaN; otherwise the counters are exact and
the value is the rational `100 * Passes / (Passes + Fails)`. -/
def checkPercent (passes fails : Nat) : FloatVal :=
  if passes + fails = 0 then FloatVal.nan
  else FloatVal.val (100 * ((passes : ℚ) / ((passes : ℚ) + (fails : ℚ))))

/-- One line of the end-of-run group summary: a group header
(run.go:450) or a check line (run.go:462) with its icon, percentage and
name. -/
inductive RenderLine where
  | header (level : Nat) (name : String)
  | check (level : Nat) (icon : String) (percent : FloatVal) (name : String)
  deriving DecidableEq, Repr

/-- Embedding of `printGroup` (run.go:446–479): emit the header when the
group is named and has a parent, then one line per check with icon `✗`
when the check has failures and `✓` otherwise and the unguarded pass
percentage, then recurse into the child groups one level deeper. -/
def printGroup : Group → Nat → List RenderLine
  | Group.mk name hasParent checks groups, level =>
    (if name ≠ "" ∧ hasParent then [RenderLine.header level name] else []) ++
      (checks.map fun c =>
        RenderLine.check level (if c.Fails > 0 then "✗" else "✓")
          (checkPercent c.Passes c.Fails) c.Name) ++
      (groups.attach.map fun g => printGroup g.1 (level + 1)).flatten
termination_by g _ => sizeOf g
decreasing_by
  have h1 : sizeOf g.1 < sizeOf groups := List.sizeOf_lt_of_mem g.2
  simp only [Group.mk.sizeOf_spec]
  omega

/-- All checks of a group's subtree, in rendering order. -/
def subtreeChecks : Group → List Check
  | Group.mk _ _ checks groups =>
    checks ++ (groups.attach.map fun g => subtreeChecks g.1).flatten
termination_by g => sizeOf g
decreasing_by
  have h1 : sizeOf g.1 < sizeOf groups := List.sizeOf_lt_of_mem g.2
  simp only [Group.mk.sizeOf_spec]
  omega

/-- The check lines of a rendered summary: icon, percentage and name of
every `RenderLine.check`. -/
def renderedChecks (ls : List RenderLine) : List (String × FloatVal × String) :=
  ls.filterMap fun l =>
    match l with
    | RenderLine.check _ icon p name => some (icon, p, name)
    | _ => none

/-- A concrete example environment for evaluating the model: one parsable
URL, one readable file, readable stdin, all constructors succeeding. -/
def envEx : Env where
  urlParse := fun s => if s = "http://x" then some ⟨"http"⟩ else none
  readFile := fun f =>
    if f = "script.js" then Except.ok "code" else Except.error "open failed"
  stdinData := Except.ok "stdin code"
  simpleNewOk := fun _ => true
  jsLoadOk := fun _ => true
  influxdbNewOk := fun _ => true
  jsonNewOk := fun _ => true
  engineNewOk := true

/-- C5: with `--type=js`, a non-stdin argument is first read as a file;
on read failure the argument itself becomes the inline source with the
command-line sentinel filename, and resolution never fails. -/
theorem c5_js_resolution (env : Env) (arg : String) (h : arg ≠ "-") :
    getSrcData env arg TypeJS =
      match env.readFile arg with
      | Except.ok d => Except.ok ⟨d, arg, TypeJS⟩
      | Except.error _ => Except.ok ⟨arg, cmdline, TypeJS⟩ := by
  unfold getSrcData
  rw [if_neg h, if_neg (by decide : ¬(TypeJS = TypeAuto)),
    if_neg (by decide : ¬(TypeJS = TypeURL)), if_pos rfl]
  cases henv : env.readFile arg with
  | ok d => simp [if_neg (by decide : ¬(TypeJS = TypeAuto))]
  | error e => simp [if_neg (by decide : ¬(TypeJS = TypeAuto))]

/-- Witness for C5 at a concrete input: the argument is not stdin, the
file exists, and the resolved source is its content. -/
theorem c5_js_resolution_witness :
    ("script.js" : String) ≠ "-" ∧
      getSrcData envEx "script.js" TypeJS =
        match envEx.readFile "script.js" with
        | Except.ok d => Except.ok ⟨d, "script.js", TypeJS⟩
        | Except.error _ => Except.ok ⟨"script.js", cmdline, TypeJS⟩ :=
  ⟨by decide, c5_js_resolution envEx "script.js" (by decide)⟩

/-- C2: with `--type=auto`, a non-stdin argument that looks like a URL
resolves to a `url` source holding the argument; otherwise the argument
is read as a file (content kept, type still auto, resolved by the URL
heuristic on the content); a failed read makes the argument itself inline
`js` source; stdin content is likewise resolved by reapplying the
heuristic to the content. -/
theorem c2_auto_resolution (env : Env) (arg : String) (h : arg ≠ "-") :
    (getSrcData env arg TypeAuto =
      if looksLikeURL env arg then Except.ok ⟨arg, cmdline, TypeURL⟩
      else
        match env.readFile arg with
        | Except.ok d =>
          Except.ok ⟨d, arg, if looksLikeURL env d then TypeURL else TypeJS⟩
        | Except.error _ => Except.ok ⟨arg, cmdline, TypeJS⟩) ∧
    (getSrcData env "-" TypeAuto =
      match env.stdinData with
      | Except.ok d =>
        Except.ok ⟨d, "-", if looksLikeURL env d then TypeURL else TypeJS⟩
      | Except.error e => Except.error e) := by
  constructor
  · unfold getSrcData
    rw [if_neg h, if_pos rfl]
    by_cases hu : looksLikeURL env arg
    · simp [hu]
    · rw [if_neg hu]
      cases henv : env.readFile arg with
      | ok d => simp [hu]
      | error e => simp [hu]
  · unfold getSrcData
    rw [if_pos rfl]
    cases hs : env.stdinData with
    | ok d => simp
    | error e => simp

/-- Witness for C2 at a concrete input: a non-URL argument naming a
readable file whose content is not a URL resolves to that content as a
`js` source, and stdin content resolves by the heuristic. -/
theorem c2_auto_resolution_witness :
    ("script.js" : String) ≠ "-" ∧
      ((getSrcData envEx "script.js" TypeAuto =
        if looksLikeURL envEx "script.js" then
          Except.ok ⟨"script.js", cmdline, TypeURL⟩
        else
          match envEx.readFile "script.js" with
          | Except.ok d =>
            Except.ok ⟨d, "script.js",
              if looksLikeURL envEx d then TypeURL else TypeJS⟩
          | Except.error _ => Except.ok ⟨"script.js", cmdline, TypeJS⟩) ∧
      (getSrcData envEx "-" TypeAuto =
        match envEx.stdinData with
        | Except.ok d =>
          Except.ok ⟨d, "-", if looksLikeURL envEx d then TypeURL else TypeJS⟩
        | Except.error e => Except.error e)) :=
  ⟨by decide, c2_auto_resolution envEx "script.js" (by decide)⟩

/-- C4: with `--type=url`, a non-stdin argument that looks like a URL is
used directly (with the command-line sentinel filename); otherwise the
file named by the argument is read, a failed read being an error; the
resulting content must itself parse as a URL with non-empty scheme in
`makeRunner`, which otherwise fails, and on success builds the simple
runner from the parsed URL. -/
theorem c4_url_resolution (env : Env) (arg bad good f : String) (u : GoURL)
    (h : arg ≠ "-") :
    (getSrcData env arg TypeURL =
      if looksLikeURL env arg then Except.ok ⟨arg, cmdline, TypeURL⟩
      else
        match env.readFile arg with
        | Except.ok d => Except.ok ⟨d, arg, TypeURL⟩
        | Except.error e => Except.error e) ∧
    (looksLikeURL env bad = false →
      makeRunner env ⟨bad, f, TypeURL⟩ = Except.error "Failed to parse URL") ∧
    (env.urlParse good.trim = some u → u.Scheme ≠ "" →
      env.simpleNewOk u = true →
      makeRunner env ⟨good, f, TypeURL⟩ = Except.ok (Runner.simple u)) := by
  refine ⟨?_, ?_, ?_⟩
  · unfold getSrcData
    rw [if_neg h, if_neg (by decide : ¬(TypeURL = TypeAuto)), if_pos rfl]
    by_cases hu : looksLikeURL env arg
    · simp [hu]
    · rw [if_neg hu]
      cases henv : env.readFile arg with
      | ok d => simp [hu, TypeAuto, TypeURL, TypeJS]
      | error e => simp [hu]
  · intro hd
    unfold makeRunner
    rw [if_neg (by decide : ¬(TypeURL = "")), if_pos rfl]
    unfold looksLikeURL at hd
    cases hp : env.urlParse bad.trim with
    | none => rfl
    | some u2 =>
      rw [hp] at hd
      have hd2 : u2.Scheme = "" := by simpa using hd
      simp [hd2]
  · intro hp hs hok
    unfold makeRunner
    rw [if_neg (by decide : ¬(TypeURL = "")), if_pos rfl, hp]
    simp [hs, hok]

/-- Witness for C4 at a concrete input: the argument `http://x` looks
like a URL and is used directly; the content `nota url` does not parse
and makes `makeRunner` fail; the content `http://x` parses to the scheme
`http` and yields the simple runner. -/
theorem c4_url_resolution_witness :
    ("http://x" : String) ≠ "-" ∧
      ((getSrcData envEx "http://x" TypeURL =
        if looksLikeURL envEx "http://x" then
          Except.ok ⟨"http://x", cmdline, TypeURL⟩
        else
          match envEx.readFile "http://x" with
          | Except.ok d => Except.ok ⟨d, "http://x", TypeURL⟩
          | Except.error e => Except.error e) ∧
      (looksLikeURL envEx "nota url" = false →
        makeRunner envEx ⟨"nota url", cmdline, TypeURL⟩ =
          Except.error "Failed to parse URL") ∧
      (envEx.urlParse ("http://x" : String).trim = some ⟨"http"⟩ →
        GoURL.Scheme ⟨"http"⟩ ≠ "" → envEx.simpleNewOk ⟨"http"⟩ = true →
        makeRunner envEx ⟨"http://x", cmdline, TypeURL⟩ =
          Except.ok (Runner.simple ⟨"http"⟩))) :=
  ⟨by decide,
    c4_url_resolution envEx "http://x" "nota url" "http://x" cmdline ⟨"http"⟩
      (by decide)⟩

/-- Auxiliary totality: for a non-stdin argument and any type other than
`url`, `getSrcData` succeeds. -/
theorem getSrcData_total_aux (env : Env) (arg t : String) (h : arg ≠ "-")
    (ht : t ≠ TypeURL) : isOkB (getSrcData env arg t) = true := by
  unfold getSrcData
  rw [if_neg h]
  by_cases ha : t = TypeAuto
  · subst ha
    rw [if_pos rfl]
    by_cases hu : looksLikeURL env arg
    · simp [hu, isOkB]
    · cases henv : env.readFile arg <;> simp [hu, henv, isOkB]
  · rw [if_neg ha, if_neg ht]
    by_cases hj : t = TypeJS
    · subst hj
      rw [if_pos rfl]
      cases henv : env.readFile arg <;> simp [henv, isOkB, if_neg ha]
    · rw [if_neg hj]
      simp [isOkB, if_neg ha]

/-- C9: for every non-stdin argument, source resolution with type `auto`
or `js` never returns an error; conversely a resolution failure can only
come from the stdin argument or the `url` type. -/
theorem c9_auto_js_never_fail (env : Env) (arg t : String) :
    (arg ≠ "-" → t = TypeAuto ∨ t = TypeJS →
      isOkB (getSrcData env arg t) = true) ∧
    (isOkB (getSrcData env arg t) = false → arg = "-" ∨ t = TypeURL) := by
  constructor
  · intro h hd
    refine getSrcData_total_aux env arg t h ?_
    rcases hd with hd | hd <;> subst hd <;> decide
  · intro hbad
    by_cases h : arg = "-"
    · exact Or.inl h
    by_cases ht : t = TypeURL
    · exact Or.inr ht
    · rw [getSrcData_total_aux env arg t h ht] at hbad
      exact absurd hbad (by decide)

/-- Witness for C9 at a concrete input: resolution of a missing file as
type `auto` still succeeds. -/
theorem c9_auto_js_never_fail_witness :
    isOkB (getSrcData envEx "missing.js" TypeAuto) = true :=
  (c9_auto_js_never_fail envEx "missing.js" TypeAuto).1 (by decide)
    (Or.inl rfl)

/-- C10: a type outside auto/url/js passes through `getSrcData`
unchanged for a non-stdin argument, with empty source bytes and the
argument as filename; `makeRunner` then rejects every source kind outside
url/js (including the empty string) with the invalid-type error. -/
theorem c10_unknown_type_passthrough (env : Env) (arg t : String)
    (src : SourceData) (h : arg ≠ "-") (ha : t ≠ TypeAuto) (hu : t ≠ TypeURL)
    (hj : t ≠ TypeJS) :
    getSrcData env arg t = Except.ok ⟨"", arg, t⟩ ∧
      (src.SrcType ≠ TypeURL → src.SrcType ≠ TypeJS →
        makeRunner env src = Except.error "Invalid type specified, see --help") := by
  constructor
  · unfold getSrcData
    rw [if_neg h, if_neg ha, if_neg hu, if_neg hj]
    simp [if_neg ha]
  · intro h1 h2
    unfold makeRunner
    by_cases h0 : src.SrcType = ""
    · rw [if_pos h0]
    · rw [if_neg h0, if_neg h1, if_neg h2]

/-- Witness for C10 at a concrete input: the type `simple` passes
through resolution with empty source bytes and is rejected by
`makeRunner`. -/
theorem c10_unknown_type_passthrough_witness :
    ("arg" : String) ≠ "-" ∧ ("simple" : String) ≠ TypeAuto ∧
      ("simple" : String) ≠ TypeURL ∧ ("simple" : String) ≠ TypeJS ∧
      (getSrcData envEx "arg" "simple" = Except.ok ⟨"", "arg", "simple"⟩ ∧
        (SourceData.SrcType ⟨"", "f", "simple"⟩ ≠ TypeURL →
          SourceData.SrcType ⟨"", "f", "simple"⟩ ≠ TypeJS →
          makeRunner envEx ⟨"", "f", "simple"⟩ =
            Except.error "Invalid type specified, see --help")) :=
  ⟨by decide, by decide, by decide, by decide,
    c10_unknown_type_passthrough envEx "arg" "simple" ⟨"", "f", "simple"⟩
      (by decide) (by decide) (by decide) (by decide)⟩

/-- A character list without `=` has no split: Go's `SplitN` returns a
single part. -/
theorem splitOnceAux_eq_none (l : List Char) (h : ¬ '=' ∈ l) :
    splitOnceAux l = none := by
  induction l with
  | nil => rfl
  | cons c rest ih =>
    have hc : ¬(c = '=') := by
      intro e
      subst e
      exact h (List.mem_cons_self _ _)
    have hrest : ¬ '=' ∈ rest := fun hm => h (List.mem_cons_of_mem c hm)
    simp only [splitOnceAux, if_neg hc, ih hrest]

/-- Splitting `k ++ '=' :: p` where `k` has no `=` yields exactly
`(k, p)`. -/
theorem splitOnceAux_append (k p : List Char) (h : ¬ '=' ∈ k) :
    splitOnceAux (k ++ '=' :: p) = some (k, p) := by
  induction k with
  | nil => simp [splitOnceAux]
  | cons c rest ih =>
    have hc : ¬(c = '=') := by
      intro e
      subst e
      exact h (List.mem_cons_self _ _)
    have hrest : ¬ '=' ∈ rest := fun hm => h (List.mem_cons_of_mem c hm)
    simp only [List.cons_append, splitOnceAux, List.append_eq, if_neg hc,
      ih hrest]

/-- The character list of a concatenation. -/
theorem toList_append (a b : String) : (a ++ b).toList = a.toList ++ b.toList :=
  String.data_append a b

/-- Rebuilding a string from its character list. -/
theorem mk_toList (s : String) : String.mk s.toList = s := rfl

/-- Parsing `k ++ "=" ++ p` with a kind free of `=` yields the pair
`(k, p)`. -/
theorem parseCollectorString_append (k p : String) (h : ¬ '=' ∈ k.toList) :
    parseCollectorString (k ++ "=" ++ p) = Except.ok (k, p) := by
  unfold parseCollectorString
  have h1 : (k ++ "=" ++ p).toList = k.toList ++ '=' :: p.toList := by
    rw [toList_append, toList_append, List.append_assoc]
    rfl
  rw [h1, splitOnceAux_append k.toList p.toList h]
  rfl

/-- C6: an `--out` string without `=` fails with the malformed-output
error; `influxdb=`/`json=` destinations construct the corresponding
collector (when the constructor succeeds); every other kind fails with
the unknown-output-type error naming the kind. -/
theorem c6_collector_strings (env : Env) (s k p : String) :
    ((¬ '=' ∈ s.toList) → makeCollector env s =
      Except.error "Malformed output; must be in the form type=url") ∧
    (env.influxdbNewOk p = true → makeCollector env ("influxdb=" ++ p) =
      Except.ok (Collector.influxdb p)) ∧
    (env.jsonNewOk p = true → makeCollector env ("json=" ++ p) =
      Except.ok (Collector.json p)) ∧
    ((¬ '=' ∈ k.toList) → k ≠ "influxdb" → k ≠ "json" →
      makeCollector env (k ++ "=" ++ p) =
        Except.error ("Unknown output type: " ++ k)) := by
  refine ⟨?_, ?_, ?_, ?_⟩
  · intro h
    unfold makeCollector parseCollectorString
    rw [splitOnceAux_eq_none s.toList h]
  · intro hok
    have h1 : ("influxdb=" ++ p : String) = "influxdb" ++ "=" ++ p := rfl
    unfold makeCollector
    rw [h1, parseCollectorString_append "influxdb" p (by decide)]
    simp [hok]
  · intro hok
    have h1 : ("json=" ++ p : String) = "json" ++ "=" ++ p := rfl
    unfold makeCollector
    rw [h1, parseCollectorString_append "json" p (by decide)]
    simp [hok]
  · intro h hk1 hk2
    unfold makeCollector
    rw [parseCollectorString_append k p h]
    simp [hk1, hk2]

/-- Witness for C6 at concrete inputs: `nowhere` (no `=`) is malformed,
`influxdb=udp://x` constructs the influxdb collector, and `statsd=y` is
an unknown kind. -/
theorem c6_collector_strings_witness :
    (¬ '=' ∈ ("nowhere" : String).toList) ∧
      makeCollector envEx "nowhere" =
        Except.error "Malformed output; must be in the form type=url" ∧
      makeCollector envEx ("influxdb=" ++ "udp://x") =
        Except.ok (Collector.influxdb "udp://x") ∧
      makeCollector envEx ("statsd" ++ "=" ++ "y") =
        Except.error ("Unknown output type: " ++ "statsd") :=
  ⟨by decide,
    (c6_collector_strings envEx "nowhere" "statsd" "udp://x").1 (by decide),
    (c6_collector_strings envEx "nowhere" "statsd" "udp://x").2.1 rfl,
    (c6_collector_strings envEx "nowhere" "statsd" "udp://x").2.2.2
      (by decide) (by decide) (by decide)⟩

/-- Folding `applyNull` over a list of layers picks the last layer that
is valid, and otherwise the initial accumulator. -/
theorem foldl_applyNull {α : Type} (l : List (NullVal α)) (init : NullVal α) :
    l.foldl applyNull init =
      match l.reverse.find? (fun v => v.Valid) with
      | some v => v
      | none => init := by
  induction l using List.reverseRecOn generalizing init with
  | nil => rfl
  | append_singleton xs x ih =>
    rw [List.foldl_append, List.reverse_append]
    simp only [List.foldl_cons, List.foldl_nil, List.reverse_cons,
      List.reverse_nil, List.nil_append, List.cons_append]
    by_cases hx : x.Valid
    · rw [List.find?_cons_of_pos _ (by simpa using hx)]
      have hax : applyNull (List.foldl applyNull init xs) x = x := if_pos hx
      rw [hax]
    · rw [List.find?_cons_of_neg _ (by simpa using hx)]
      have hax : applyNull (List.foldl applyNull init xs) x =
          List.foldl applyNull init xs := if_neg hx
      rw [hax, ih init]

/-- A field projection commuting with `Apply` projects the merge pipeline
onto the per-field precedence choice. -/
theorem mergeOptions_proj {α : Type} (p : Options → NullVal α)
    (hp : ∀ a b : Options, p (a.Apply b) = applyNull (p a) (p b))
    (cli r : Options) (cfgs : List Options) :
    p (mergeOptions cli r cfgs) = precedenceChoice (p cli) (p r) (cfgs.map p) := by
  unfold mergeOptions precedenceChoice
  have hfold : ∀ init : Options,
      p (cfgs.foldl Options.Apply init) = (cfgs.map p).foldl applyNull (p init) := by
    intro init
    induction cfgs generalizing init with
    | nil => rfl
    | cons c rest ih =>
      rw [List.foldl_cons, List.map_cons, List.foldl_cons, ih, hp]
  rw [hfold, hp, foldl_applyNull]
  rfl

/-- CLI options setting `VUs` to 5 (the `--vus 5` flag). -/
def cliOptsEx : Options := { emptyOptions with VUs := ⟨5, true⟩ }

/-- Runner-declared options setting `VUs` to 7 (a script-exported
default). -/
def runnerOptsEx : Options := { emptyOptions with VUs := ⟨7, true⟩ }

/-- C1 counterexample: with `--vus 5` on the CLI and a runner declaring
`VUs = 7`, and no config files, the merged options carry 7 — the runner
layer overrides the CLI flag, so CLI flags are not the highest of the
merged layers as the claim states. -/
theorem c1_cli_flag_overridden :
    cliOptsEx.VUs = ⟨5, true⟩ ∧ runnerOptsEx.VUs = ⟨7, true⟩ ∧
      (mergeOptions cliOptsEx runnerOptsEx []).VUs.val = 7 ∧
      (mergeOptions cliOptsEx runnerOptsEx []).VUs.val ≠ 5 := by
  refine ⟨rfl, rfl, rfl, ?_⟩
  decide

/-- C1 (amended): the merge pipeline of `actionRun` applies the layers
in the precedence (lowest to highest) CLI flags, then runner-declared
options, then config files in order: every field of the merged options is
the value of the last config file that set it, else the runner layer if
it set it, else the CLI layer. -/
theorem c1_options_precedence (cli r : Options) (cfgs : List Options) :
    (mergeOptions cli r cfgs).Paused =
        precedenceChoice cli.Paused r.Paused (cfgs.map fun o => o.Paused) ∧
      (mergeOptions cli r cfgs).VUs =
        precedenceChoice cli.VUs r.VUs (cfgs.map fun o => o.VUs) ∧
      (mergeOptions cli r cfgs).VUsMax =
        precedenceChoice cli.VUsMax r.VUsMax (cfgs.map fun o => o.VUsMax) ∧
      (mergeOptions cli r cfgs).Duration =
        precedenceChoice cli.Duration r.Duration (cfgs.map fun o => o.Duration) ∧
      (mergeOptions cli r cfgs).Linger =
        precedenceChoice cli.Linger r.Linger (cfgs.map fun o => o.Linger) ∧
      (mergeOptions cli r cfgs).AbortOnTaint =
        precedenceChoice cli.AbortOnTaint r.AbortOnTaint
          (cfgs.map fun o => o.AbortOnTaint) ∧
      (mergeOptions cli r cfgs).Acceptance =
        precedenceChoice cli.Acceptance r.Acceptance
          (cfgs.map fun o => o.Acceptance) ∧
      (mergeOptions cli r cfgs).MaxRedirects =
        precedenceChoice cli.MaxRedirects r.MaxRedirects
          (cfgs.map fun o => o.MaxRedirects) ∧
      (mergeOptions cli r cfgs).Thresholds =
        precedenceChoice cli.Thresholds r.Thresholds
          (cfgs.map fun o => o.Thresholds) :=
  ⟨mergeOptions_proj _ (fun _ _ => rfl) cli r cfgs,
    mergeOptions_proj _ (fun _ _ => rfl) cli r cfgs,
    mergeOptions_proj _ (fun _ _ => rfl) cli r cfgs,
    mergeOptions_proj _ (fun _ _ => rfl) cli r cfgs,
    mergeOptions_proj _ (fun _ _ => rfl) cli r cfgs,
    mergeOptions_proj _ (fun _ _ => rfl) cli r cfgs,
    mergeOptions_proj _ (fun _ _ => rfl) cli r cfgs,
    mergeOptions_proj _ (fun _ _ => rfl) cli r cfgs,
    mergeOptions_proj _ (fun _ _ => rfl) cli r cfgs⟩

/-- CLI options with `--vus 5 --max 3`: both fields explicitly set. -/
def cliOptsEx7 : Options :=
  { emptyOptions with VUs := ⟨5, true⟩, VUsMax := ⟨3, true⟩ }

/-- C7 counterexample: with `--vus 5 --max 3`, after the full merge and
fixup the effective options have `VUsMax = 3 < 5 = VUs` — the claimed
invariant `VUsMax ≥ VUs` does not hold when `VUsMax` is explicitly set
below `VUs`. -/
theorem c7_vusmax_invariant_fails :
    (effectiveOptions cliOptsEx7 emptyOptions []).VUsMax.val = 3 ∧
      (effectiveOptions cliOptsEx7 emptyOptions []).VUs.val = 5 ∧
      ¬((effectiveOptions cliOptsEx7 emptyOptions []).VUsMax.val ≥
        (effectiveOptions cliOptsEx7 emptyOptions []).VUs.val) := by
  refine ⟨rfl, rfl, ?_⟩
  decide

/-- C7 (amended): after the merge, if `VUsMax` is unset it is assigned
the value of `VUs` (so `VUsMax ≥ VUs` holds in that case, with equality)
before all fields are marked valid; if `VUsMax` is set its value is kept
unchanged, with no `VUsMax ≥ VUs` enforcement. -/
theorem c7_vusmax_fixup (opts : Options) :
    (opts.VUsMax.Valid = false →
      (finalizeVUsMax opts).VUsMax.val = opts.VUs.val ∧
        (finalizeVUsMax opts).VUs.val ≤ (finalizeVUsMax opts).VUsMax.val) ∧
    (opts.VUsMax.Valid = true →
      (finalizeVUsMax opts).VUsMax.val = opts.VUsMax.val) ∧
    (finalizeVUsMax opts).VUs.val = opts.VUs.val ∧
    (finalizeVUsMax opts).allValid = true := by
  unfold finalizeVUsMax Options.SetAllValid Options.allValid
  by_cases h : opts.VUsMax.Valid <;> simp [h]

/-- Witness for C7 at a concrete input: the all-unset options have
invalid `VUsMax`, and after the fixup `VUsMax` equals `VUs`. -/
theorem c7_vusmax_fixup_witness :
    emptyOptions.VUsMax.Valid = false ∧
      ((finalizeVUsMax emptyOptions).VUsMax.val = emptyOptions.VUs.val ∧
        (finalizeVUsMax emptyOptions).VUs.val ≤
          (finalizeVUsMax emptyOptions).VUsMax.val) :=
  ⟨rfl, (c7_vusmax_fixup emptyOptions).1 rfl⟩

/-- An induction principle for the nested `Group` tree: to prove a
property of every group it suffices to prove it for a node assuming it
for all child groups. -/
theorem group_induction (motive : Group → Prop)
    (h : ∀ n hpar cs gs, (∀ g ∈ gs, motive g) → motive (Group.mk n hpar cs gs)) :
    ∀ g, motive g
  | Group.mk n hpar cs gs => h n hpar cs gs fun g hg =>
      group_induction motive h g
termination_by g => sizeOf g
decreasing_by
  have h1 : sizeOf g < sizeOf gs := List.sizeOf_lt_of_mem hg
  simp only [Group.mk.sizeOf_spec]
  omega

/-- The icon/percentage/name tuple the summary prints for one check. -/
def checkEntry (c : Check) : String × FloatVal × String :=
  (if c.Fails > 0 then "✗" else "✓", checkPercent c.Passes c.Fails, c.Name)

/-- Rendering extraction distributes over appended line lists. -/
theorem renderedChecks_append (a b : List RenderLine) :
    renderedChecks (a ++ b) = renderedChecks a ++ renderedChecks b := by
  unfold renderedChecks
  rw [List.filterMap_append]

/-- Rendering extraction over the flattened child renderings, given the
property for every child. -/
theorem renderedChecks_flatten (L : List Group)
    (hL : ∀ g ∈ L, ∀ lv : Nat,
      renderedChecks (printGroup g lv) = (subtreeChecks g).map checkEntry)
    (lv : Nat) :
    renderedChecks ((L.map fun g => printGroup g lv).flatten) =
      ((L.map subtreeChecks).flatten).map checkEntry := by
  induction L with
  | nil => rfl
  | cons a rest ihl =>
    simp only [List.map_cons, List.flatten_cons]
    rw [renderedChecks_append, hL a (List.mem_cons_self a rest) lv,
      List.map_append,
      ihl fun g hg lv2 => hL g (List.mem_cons_of_mem a hg) lv2]

/-- The check lines of a rendered group summary are exactly the subtree's
checks mapped to their icon/percentage/name entries. -/
theorem renderedChecks_printGroup (g : Group) (level : Nat) :
    renderedChecks (printGroup g level) = (subtreeChecks g).map checkEntry := by
  induction g using group_induction generalizing level with
  | h n hpar cs gs ih =>
    simp only [printGroup, subtreeChecks]
    rw [renderedChecks_append, renderedChecks_append, List.map_append]
    have hhdr :
        renderedChecks (if n ≠ "" ∧ hpar then [RenderLine.header level n] else []) =
          [] := by
      split <;> rfl
    have hchk :
        renderedChecks (cs.map fun c =>
          RenderLine.check level (if c.Fails > 0 then "✗" else "✓")
            (checkPercent c.Passes c.Fails) c.Name) = cs.map checkEntry := by
      induction cs with
      | nil => rfl
      | cons c rest ih2 =>
        simp [renderedChecks, checkEntry, List.filterMap_cons] at ih2 ⊢
        exact ih2
    rw [hhdr, hchk, List.nil_append,
      List.attach_map_coe gs (fun g => printGroup g (level + 1)),
      List.attach_map_coe gs subtreeChecks,
      renderedChecks_flatten gs ih (level + 1)]

/-- C8: every check line of the end-of-run group summary displays, for a
check with counters `Passes` and `Fails`, the pass percentage
`100 · Passes / (Passes + Fails)`; when the denominator is zero the
unguarded float division yields NaN. -/
theorem c8_check_percentages (g : Group) (level : Nat) :
    renderedChecks (printGroup g level) =
      (subtreeChecks g).map fun c =>
        (if c.Fails > 0 then "✗" else "✓",
          if c.Passes + c.Fails = 0 then FloatVal.nan
          else
            FloatVal.val
              (100 * ((c.Passes : ℚ) / ((c.Passes : ℚ) + (c.Fails : ℚ)))),
          c.Name) := by
  rw [renderedChecks_printGroup]
  rfl

/-- Success of the config-file loop depends only on the files, not on
the accumulated options. -/
theorem readConfigsAux_isOk (c : CliEnv) (fs : List String) (o : Options) :
    isOkB (readConfigsAux c fs o) =
      fs.all fun f =>
        match c.env.readFile f with
        | Except.error _ => false
        | Except.ok data => (c.parseYaml data).isSome := by
  induction fs generalizing o with
  | nil => rfl
  | cons f rest ih =>
    simp only [readConfigsAux, List.all_cons]
    cases hf : c.env.readFile f with
    | error e => simp [isOkB]
    | ok data =>
      simp only []
      cases hy : c.parseYaml data with
      | none => simp [hy, isOkB]
      | some cfg => simpa [hy, isOkB] using ih (o.Apply cfg)

/-- The exit status of `actionRun` is decided by setup success and the
final taint flag alone: 1 on setup failure, 99 on a tainted run, 0
otherwise. -/
theorem actionRunExit_eq (c : CliEnv) :
    actionRunExit c =
      if setupOk c then (if c.tainted then 99 else 0) else 1 := by
  by_cases hlen : c.args.length = 1
  case neg =>
    unfold actionRunExit setupOk
    rw [if_neg hlen, if_neg hlen]
    simp
  case pos =>
    cases hs : getSrcData c.env c.args.headI c.typeFlag with
    | error e =>
      unfold actionRunExit setupOk
      rw [if_pos hlen, if_pos hlen, hs]
      simp
    | ok srcdata =>
      cases hr : makeRunner c.env srcdata with
      | error e =>
        unfold actionRunExit setupOk
        rw [if_pos hlen, if_pos hlen, hs]
        simp only []
        simp only [hr]
        simp
      | ok runner =>
        have hro := readConfigsAux_isOk c c.configFiles
          (c.cliOpts.Apply (c.runnerGetOptions runner))
        cases hc : readConfigs c (c.cliOpts.Apply (c.runnerGetOptions runner)) with
        | error e =>
          rw [readConfigs] at hc
          rw [hc] at hro
          have hcfg : configsOk c = false := by
            rw [configsOk, ← hro]
            rfl
          unfold actionRunExit setupOk
          rw [if_pos hlen, if_pos hlen, hs]
          simp only []
          simp only [hr]
          simp only [readConfigs, hc]
          simp [hcfg]
        | ok merged =>
          rw [readConfigs] at hc
          rw [hc] at hro
          have hcfg : configsOk c = true := by
            rw [configsOk, ← hro]
            rfl
          unfold actionRunExit setupOk
          rw [if_pos hlen, if_pos hlen, hs]
          simp only []
          simp only [hr]
          simp only [readConfigs, hc]
          simp only [hcfg]
          by_cases ho : c.outFlag = ""
          · simp [ho]
          · cases hm : makeCollector c.env c.outFlag with
            | error e => simp [ho, hm, isOkB]
            | ok col => simp [ho, hm, isOkB]

/-- C3: the run command exits 99 exactly when setup succeeded and the
engine status is tainted at the end of the run, 0 exactly when setup
succeeded untainted, and 1 on usage or setup errors; the `Acceptance`
option has no influence on the exit status. -/
theorem c3_exit_codes (c : CliEnv) (a : NullVal ℚ) :
    (actionRunExit c = 99 ↔ (setupOk c = true ∧ c.tainted = true)) ∧
      (actionRunExit c = 0 ↔ (setupOk c = true ∧ c.tainted = false)) ∧
      (setupOk c = false → actionRunExit c = 1) ∧
      actionRunExit { c with cliOpts := { c.cliOpts with Acceptance := a } } =
        actionRunExit c := by
  have hm := actionRunExit_eq c
  have hm2 := actionRunExit_eq
    { c with cliOpts := { c.cliOpts with Acceptance := a } }
  refine ⟨?_, ?_, ?_, ?_⟩
  · rw [hm]
    by_cases h1 : setupOk c <;> by_cases h2 : c.tainted <;> simp [h1, h2]
  · rw [hm]
    by_cases h1 : setupOk c <;> by_cases h2 : c.tainted <;> simp [h1, h2]
  · intro h1
    rw [hm, h1]
    rfl
  · rw [hm2, hm]
    rfl

/-- A concrete `actionRun` input: a readable `js` script, no `--out`, no
config files, engine construction succeeding and a tainted final
status. -/
def cliEnvEx : CliEnv where
  env := envEx
  args := ["script.js"]
  typeFlag := "js"
  outFlag := ""
  cliOpts := emptyOptions
  runnerGetOptions := fun _ => emptyOptions
  configFiles := []
  parseYaml := fun _ => some emptyOptions
  tainted := true

/-- Witness for C3 at a concrete input: setup succeeds, the run is
tainted, and the exit status is 99. -/
theorem c3_exit_codes_witness :
    setupOk cliEnvEx = true ∧ cliEnvEx.tainted = true ∧
      actionRunExit cliEnvEx = 99 :=
  ⟨rfl, rfl, (c3_exit_codes cliEnvEx ⟨0, false⟩).1.mpr ⟨rfl, rfl⟩⟩

end K6Run
